import Mathlib

/-!
Verification of `tensorflow/core/common_runtime/gpu/gpu_cudamallocasync_allocator.cc`
(class `GPUcudaMallocAsyncAllocator`).

The allocator keeps an `AllocatorStats` record `stats_` and a `std::map<const void*, size_t>`
`size_map_`.  The CUDA driver calls (`cudaMallocFromPoolAsync`, `cudaFreeAsync`) are modelled
as explicit parameters: an allocation attempt either fails (`none`) or returns an address
(`some rv`), and a deallocation attempt either succeeds or fails (a `Bool`), exactly the
two branches the source distinguishes on `cudaError_t`.  Addresses are modelled as `Nat`,
with `0` standing for the C++ null pointer.  The `int64` statistics fields are modelled as
`Int` (no arithmetic in the file approaches the 64-bit range, so wrap-around is not modelled).
-/

namespace CudaMallocAsync

/-- The fields of `tensorflow::AllocatorStats` touched by this allocator:
`num_allocs`, `bytes_in_use`, `peak_bytes_in_use`, `largest_alloc_size` (all `int64`,
zero-initialised), and the optional `bytes_limit` set by the constructor. -/
structure AllocatorStats where
  num_allocs : Int
  bytes_in_use : Int
  peak_bytes_in_use : Int
  largest_alloc_size : Int
  bytes_limit : Option Int
deriving Repr, DecidableEq

/-- The `std::map<const void*, size_t> size_map_`, as an association list with unique keys
(uniqueness is established where a proof needs it). -/
abbrev SizeMap := List (Nat × Nat)

/-- Key lookup in the size map (`size_map_.find` / `size_map_.at` semantics: the value at
the key, if present). -/
def mapLookup : SizeMap → Nat → Option Nat
  | [], _ => none
  | (k, v) :: rest, p => if k = p then some v else mapLookup rest p

/-- Whether the map currently contains the key. -/
def mapContains (m : SizeMap) (p : Nat) : Bool :=
  (mapLookup m p).isSome

/-- The assignment `size_map_[rv] = num_bytes`: replace the value if the key is present,
otherwise add the entry. -/
def mapInsert : SizeMap → Nat → Nat → SizeMap
  | [], p, v => [(p, v)]
  | (k, w) :: rest, p, v =>
    if k = p then (p, v) :: rest else (k, w) :: mapInsert rest p v

/-- The read `size_map_[ptr]` through `std::map::operator[]`: if the key is absent it
default-inserts a zero value first.  This returns the map after that possible insertion. -/
def mapIndexDefault (m : SizeMap) (p : Nat) : SizeMap :=
  if mapContains m p then m else m ++ [(p, 0)]

/-- The call `size_map_.erase(ptr)`: remove the entry with the key, if any. -/
def mapErase : SizeMap → Nat → SizeMap
  | [], _ => []
  | (k, v) :: rest, p =>
    if k = p then mapErase rest p else (k, v) :: mapErase rest p

/-- Sum of the sizes recorded in the map, as `Int` for comparison with `bytes_in_use`. -/
def sumSizes : SizeMap → Int
  | [] => 0
  | (_, v) :: rest => (v : Int) + sumSizes rest

/-- The keys of the size map. -/
def mapKeys (m : SizeMap) : List Nat :=
  m.map Prod.fst

/-- The mutable state of one `GPUcudaMallocAsyncAllocator` instance: the statistics record
`stats_` and the size-tracking map `size_map_`. -/
structure AllocState where
  stats : AllocatorStats
  size_map : SizeMap
deriving Repr, DecidableEq

/-- Statistics as first set up by the constructor: all counters zero-initialised and
`stats_.bytes_limit = static_cast<int64>(pool_size)`. -/
def initStats (pool_size : Nat) : AllocatorStats :=
  { num_allocs := 0, bytes_in_use := 0, peak_bytes_in_use := 0,
    largest_alloc_size := 0, bytes_limit := some (pool_size : Int) }

/-- Allocator state after the constructor body up to the optional pre-warm: zeroed
counters, `bytes_limit` set, empty size map. -/
def initState (pool_size : Nat) : AllocState :=
  { stats := initStats pool_size, size_map := [] }

/-- `GPUcudaMallocAsyncAllocator::AllocateRaw(alignment, num_bytes)`.
`driverResult` is the outcome of `cudaMallocFromPoolAsync`: `none` when it returns an
error (the function logs and returns `nullptr` with no state change), `some rv` when it
succeeds with address `rv`.  On success the source increments `num_allocs`, adds
`num_bytes` to `bytes_in_use`, raises `peak_bytes_in_use` and `largest_alloc_size` to
their new maxima, stores `size_map_[rv] = num_bytes`, and returns `rv`.
The `alignment` argument is ignored by the source. -/
def AllocateRaw (st : AllocState) (driverResult : Option Nat)
    (alignment num_bytes : Nat) : Option Nat × AllocState :=
  match driverResult with
  | none => (none, st)
  | some rv =>
    let s0 := st.stats
    let s1 := { s0 with num_allocs := s0.num_allocs + 1 }
    let s2 := { s1 with bytes_in_use := s1.bytes_in_use + (num_bytes : Int) }
    let s3 := { s2 with peak_bytes_in_use := max s2.peak_bytes_in_use s2.bytes_in_use }
    let s4 := { s3 with largest_alloc_size := max s3.largest_alloc_size (num_bytes : Int) }
    (some rv, { stats := s4, size_map := mapInsert st.size_map rv num_bytes })

/-- `GPUcudaMallocAsyncAllocator::DeallocateRaw(ptr)`.
`driverOk` is whether `cudaFreeAsync` succeeded; on failure the source only logs.
Regardless of `driverOk`, the source then reads `size_t size = size_map_[ptr]`
(`operator[]`, which default-inserts `0` for an absent key), subtracts that size from
`bytes_in_use`, and erases the key. -/
def DeallocateRaw (st : AllocState) (driverOk : Bool) (ptr : Nat) : AllocState :=
  let m := mapIndexDefault st.size_map ptr
  let size := (mapLookup m ptr).getD 0
  { stats := { st.stats with bytes_in_use := st.stats.bytes_in_use - (size : Int) },
    size_map := mapErase m ptr }

/-- Outcome of `RequestedSize` / `AllocatedSize`: a returned size, a failed `CHECK`
(process-terminating assertion), or the `std::out_of_range` exception thrown by
`std::map::at` on an absent key. -/
inductive LookupOutcome where
  | ok (size : Nat)
  | fatalCheck
  | outOfRange
deriving Repr, DecidableEq

/-- `GPUcudaMallocAsyncAllocator::RequestedSize(ptr)`: `CHECK(ptr)` terminates on the
null pointer; otherwise `size_map_.at(ptr)` returns the recorded size or throws
`std::out_of_range` for an untracked address. -/
def RequestedSize (st : AllocState) (ptr : Nat) : LookupOutcome :=
  if ptr = 0 then .fatalCheck
  else
    match mapLookup st.size_map ptr with
    | some s => .ok s
    | none => .outOfRange

/-- `GPUcudaMallocAsyncAllocator::AllocatedSize(ptr)`: same body as `RequestedSize`. -/
def AllocatedSize (st : AllocState) (ptr : Nat) : LookupOutcome :=
  if ptr = 0 then .fatalCheck
  else
    match mapLookup st.size_map ptr with
    | some s => .ok s
    | none => .outOfRange

/-- `GPUcudaMallocAsyncAllocator::GetStats()`: returns a copy of `stats_`
(taken under `lock_`). -/
def GetStats (st : AllocState) : AllocatorStats :=
  st.stats

/-- `GPUcudaMallocAsyncAllocator::ClearStats()`: under `lock_`, sets `num_allocs := 0`,
`peak_bytes_in_use := bytes_in_use`, `largest_alloc_size := 0`; `bytes_in_use` and
`size_map_` are untouched. -/
def ClearStats (st : AllocState) : AllocState :=
  { st with stats :=
    { st.stats with num_allocs := 0,
                    peak_bytes_in_use := st.stats.bytes_in_use,
                    largest_alloc_size := 0 } }

/-- One externally invokable mutating operation, with the driver outcome recorded in the
operation so that a trace determines the state deterministically. -/
inductive Op where
  | alloc (driverResult : Option Nat) (alignment num_bytes : Nat)
  | dealloc (driverOk : Bool) (ptr : Nat)
  | clear
deriving Repr, DecidableEq

/-- Effect of one operation on the allocator state. -/
def step (st : AllocState) : Op → AllocState
  | .alloc dr a n => (AllocateRaw st dr a n).2
  | .dealloc ok p => DeallocateRaw st ok p
  | .clear => ClearStats st

/-- Effect of a sequence of operations, first operation first. -/
def run (st : AllocState) : List Op → AllocState
  | [] => st
  | op :: ops => run (step st op) ops

/-- The constructor pre-warm executed when `reserve_memory` is set:
`void* ptr = AllocateRaw(0, pool_size); DeallocateRaw(ptr); ... ClearStats();`
(so a failed pre-warm deallocates the null pointer). -/
def constructorPrewarm (st : AllocState) (driverResult : Option Nat)
    (pool_size : Nat) : AllocState :=
  let r := AllocateRaw st driverResult 0 pool_size
  let st2 := DeallocateRaw r.2 true (r.1.getD 0)
  ClearStats st2

/-- State after the constructor with the given pool size: the zeroed statistics with
`bytes_limit` set, then the pre-warm sequence when `reserve_memory` is set. -/
def constructState (driverResult : Option Nat) (pool_size : Nat)
    (reserve_memory : Bool) : AllocState :=
  if reserve_memory then constructorPrewarm (initState pool_size) driverResult pool_size
  else initState pool_size

/-- Kinds of atomic actions relevant to the locking discipline: acquiring or releasing
the instance mutex `lock_`, a CUDA driver call, a write to a `stats_` field, a write to
`size_map_`, and a read of `stats_` (as by `DebugString` or `GetStats`). -/
inductive Event where
  | lockAcquire
  | lockRelease
  | driverCall
  | statsWrite
  | mapWrite
  | statsRead
deriving Repr, DecidableEq

/-- Action trace of `AllocateRaw`, transcribed from the source.  Failure branch:
`cudaMallocFromPoolAsync`, then `cudaMemGetInfo` and the `LOG` that reads
`stats_.DebugString()`.  Success branch: `cudaMallocFromPoolAsync`, the four `stats_`
field updates, and the `size_map_[rv]` store.  The function never touches `lock_`. -/
def allocateRawEvents (success : Bool) : List Event :=
  if success then
    [.driverCall, .statsWrite, .statsWrite, .statsWrite, .statsWrite, .mapWrite]
  else
    [.driverCall, .driverCall, .statsRead]

/-- Action trace of `DeallocateRaw`, transcribed from the source.  `cudaFreeAsync`; on
failure also `cudaMemGetInfo` and the `LOG` reading `stats_.DebugString()`; then in both
cases the `size_map_[ptr]` read (which may default-insert), the `bytes_in_use` update,
and the `size_map_.erase`.  The function never touches `lock_`. -/
def deallocateRawEvents (success : Bool) : List Event :=
  if success then
    [.driverCall, .mapWrite, .statsWrite, .mapWrite]
  else
    [.driverCall, .driverCall, .statsRead, .mapWrite, .statsWrite, .mapWrite]

/-- Action trace of `GetStats`: `mutex_lock l(lock_); return stats_;`. -/
def getStatsEvents : List Event :=
  [.lockAcquire, .statsRead, .lockRelease]

/-- Action trace of `ClearStats`: `mutex_lock l(lock_);` then the three `stats_` field
writes, the lock being released when the guard leaves scope. -/
def clearStatsEvents : List Event :=
  [.lockAcquire, .statsWrite, .statsWrite, .statsWrite, .lockRelease]

/-- Mark each event of a trace with whether `lock_` is held when it happens, tracking
the lock depth (`lockAcquire` events are marked with the depth before acquiring). -/
def markHeld : Nat → List Event → List (Event × Bool)
  | _, [] => []
  | d, Event.lockAcquire :: rest => (Event.lockAcquire, decide (0 < d)) :: markHeld (d + 1) rest
  | d, Event.lockRelease :: rest => (Event.lockRelease, decide (0 < d)) :: markHeld (d - 1) rest
  | d, e :: rest => (e, decide (0 < d)) :: markHeld d rest

/-- Every write to `stats_` or `size_map_` in the trace happens while `lock_` is held. -/
def mutationsUnderLock (evs : List Event) : Prop :=
  ∀ eb ∈ markHeld 0 evs,
    (eb.1 = Event.statsWrite ∨ eb.1 = Event.mapWrite) → eb.2 = true

/-- No write to `stats_` or `size_map_` in the trace happens while `lock_` is held. -/
def mutationsOutsideLock (evs : List Event) : Prop :=
  ∀ eb ∈ markHeld 0 evs,
    (eb.1 = Event.statsWrite ∨ eb.1 = Event.mapWrite) → eb.2 = false

instance (evs : List Event) : Decidable (mutationsUnderLock evs) := by
  unfold mutationsUnderLock; infer_instance

instance (evs : List Event) : Decidable (mutationsOutsideLock evs) := by
  unfold mutationsOutsideLock; infer_instance

/-! ### Helper lemmas about the size map -/

theorem mapLookup_append (a b : SizeMap) (p : Nat) :
    mapLookup (a ++ b) p = ((mapLookup a p).or (mapLookup b p)) := by
  induction a with
  | nil => simp [mapLookup]
  | cons kv rest ih =>
    obtain ⟨k, v⟩ := kv
    by_cases h : k = p <;> simp [mapLookup, h, ih]

theorem mapLookup_mapInsert_self (m : SizeMap) (p v : Nat) :
    mapLookup (mapInsert m p v) p = some v := by
  induction m with
  | nil => simp [mapInsert, mapLookup]
  | cons kv rest ih =>
    obtain ⟨k, w⟩ := kv
    by_cases h : k = p <;> simp [mapInsert, mapLookup, h, ih]

theorem mapLookup_mapInsert_ne (m : SizeMap) (q p v : Nat) (h : q ≠ p) :
    mapLookup (mapInsert m q v) p = mapLookup m p := by
  induction m with
  | nil => simp [mapInsert, mapLookup, h]
  | cons kv rest ih =>
    obtain ⟨k, w⟩ := kv
    by_cases hk : k = q
    · subst hk; simp [mapInsert, mapLookup, h]
    · simp [mapInsert, mapLookup, hk, ih]

theorem mapInsert_of_absent (m : SizeMap) (p v : Nat) (h : mapLookup m p = none) :
    mapInsert m p v = m ++ [(p, v)] := by
  induction m with
  | nil => simp [mapInsert]
  | cons kv rest ih =>
    obtain ⟨k, w⟩ := kv
    by_cases hk : k = p
    · simp [mapLookup, hk] at h
    · simp [mapLookup, hk] at h
      simp [mapInsert, hk, ih h]

theorem mapErase_append (a b : SizeMap) (p : Nat) :
    mapErase (a ++ b) p = mapErase a p ++ mapErase b p := by
  induction a with
  | nil => simp [mapErase]
  | cons kv rest ih =>
    obtain ⟨k, v⟩ := kv
    by_cases h : k = p <;> simp [mapErase, h, ih]

theorem mapErase_of_absent (m : SizeMap) (p : Nat) (h : mapLookup m p = none) :
    mapErase m p = m := by
  induction m with
  | nil => simp [mapErase]
  | cons kv rest ih =>
    obtain ⟨k, v⟩ := kv
    by_cases hk : k = p
    · simp [mapLookup, hk] at h
    · simp [mapLookup, hk] at h
      simp [mapErase, hk, ih h]

theorem mapLookup_mapErase_self (m : SizeMap) (p : Nat) :
    mapLookup (mapErase m p) p = none := by
  induction m with
  | nil => simp [mapErase, mapLookup]
  | cons kv rest ih =>
    obtain ⟨k, v⟩ := kv
    by_cases h : k = p <;> simp [mapErase, mapLookup, h, ih]

theorem mapLookup_mapErase_ne (m : SizeMap) (q p : Nat) (h : q ≠ p) :
    mapLookup (mapErase m q) p = mapLookup m p := by
  induction m with
  | nil => simp [mapErase]
  | cons kv rest ih =>
    obtain ⟨k, v⟩ := kv
    by_cases hk : k = q
    · subst hk; simp [mapErase, mapLookup, h, ih]
    · by_cases hp : k = p
      · subst hp; simp [mapErase, mapLookup, hk, Ne.symm h, ih]
      · simp [mapErase, mapLookup, hk, hp, ih]

theorem mapErase_mapIndexDefault (m : SizeMap) (p : Nat) :
    mapErase (mapIndexDefault m p) p = mapErase m p := by
  unfold mapIndexDefault
  by_cases h : mapContains m p
  · simp [h]
  · simp [h, mapErase_append, mapErase]

theorem mapLookup_mapIndexDefault_getD (m : SizeMap) (p : Nat) :
    (mapLookup (mapIndexDefault m p) p).getD 0 = (mapLookup m p).getD 0 := by
  unfold mapIndexDefault mapContains
  by_cases h : (mapLookup m p).isSome
  · simp [h]
  · simp only [h, Bool.false_eq_true, if_false, mapLookup_append]
    cases hm : mapLookup m p with
    | some s => simp [hm] at h
    | none => simp [mapLookup]

/-- Characterisation of `DeallocateRaw`: subtract the recorded size (zero when
untracked) and erase the key; the driver outcome plays no part. -/
theorem DeallocateRaw_eq (st : AllocState) (ok : Bool) (p : Nat) :
    DeallocateRaw st ok p =
      { stats := { st.stats with
          bytes_in_use := st.stats.bytes_in_use - ((mapLookup st.size_map p).getD 0 : Int) },
        size_map := mapErase st.size_map p } := by
  simp only [DeallocateRaw, mapLookup_mapIndexDefault_getD, mapErase_mapIndexDefault]

theorem mapKeys_append (a b : SizeMap) :
    mapKeys (a ++ b) = mapKeys a ++ mapKeys b := by
  simp [mapKeys]

theorem not_mem_mapKeys_of_lookup_none (m : SizeMap) (p : Nat)
    (h : mapLookup m p = none) : p ∉ mapKeys m := by
  induction m with
  | nil => simp [mapKeys]
  | cons kv rest ih =>
    obtain ⟨k, v⟩ := kv
    by_cases hk : k = p
    · simp [mapLookup, hk] at h
    · simp [mapLookup, hk] at h
      simp [mapKeys] at ih ⊢
      exact ⟨fun hkp => hk hkp.symm, ih h⟩

theorem lookup_none_of_not_mem_mapKeys (m : SizeMap) (p : Nat)
    (h : p ∉ mapKeys m) : mapLookup m p = none := by
  induction m with
  | nil => simp [mapLookup]
  | cons kv rest ih =>
    obtain ⟨k, v⟩ := kv
    rw [show mapKeys ((k, v) :: rest) = k :: mapKeys rest from rfl,
        List.mem_cons, not_or] at h
    rw [show mapLookup ((k, v) :: rest) p =
          (if k = p then some v else mapLookup rest p) from rfl,
        if_neg (fun hkp => h.1 hkp.symm)]
    exact ih h.2

theorem sumSizes_append (a b : SizeMap) :
    sumSizes (a ++ b) = sumSizes a + sumSizes b := by
  induction a with
  | nil => simp [sumSizes]
  | cons kv rest ih =>
    obtain ⟨k, v⟩ := kv
    simp [sumSizes, ih]
    ring

theorem sumSizes_mapErase (m : SizeMap) (p s : Nat)
    (hnd : (mapKeys m).Nodup) (h : mapLookup m p = some s) :
    sumSizes (mapErase m p) = sumSizes m - (s : Int) := by
  induction m with
  | nil => simp [mapLookup] at h
  | cons kv rest ih =>
    obtain ⟨k, v⟩ := kv
    rw [show mapKeys ((k, v) :: rest) = k :: mapKeys rest from rfl] at hnd
    obtain ⟨h1, h2⟩ := List.nodup_cons.mp hnd
    by_cases hk : k = p
    · subst hk
      have hv : v = s := by simpa [mapLookup] using h
      subst hv
      have hrest : mapLookup rest k = none :=
        lookup_none_of_not_mem_mapKeys rest k h1
      rw [show mapErase ((k, v) :: rest) k = mapErase rest k from by simp [mapErase],
          mapErase_of_absent rest k hrest,
          show sumSizes ((k, v) :: rest) = (v : Int) + sumSizes rest from rfl]
      ring
    · simp only [mapLookup, if_neg hk] at h
      rw [show mapErase ((k, v) :: rest) p = (k, v) :: mapErase rest p from by
            simp [mapErase, hk],
          show sumSizes ((k, v) :: mapErase rest p) =
            (v : Int) + sumSizes (mapErase rest p) from rfl,
          ih h2 h,
          show sumSizes ((k, v) :: rest) = (v : Int) + sumSizes rest from rfl]
      ring

theorem mapKeys_mapErase_sublist (m : SizeMap) (p : Nat) :
    (mapKeys (mapErase m p)).Sublist (mapKeys m) := by
  induction m with
  | nil => simp [mapErase, mapKeys]
  | cons kv rest ih =>
    obtain ⟨k, v⟩ := kv
    by_cases h : k = p
    · simp only [mapErase, h, if_true]
      exact ih.trans (by simp [mapKeys])
    · simpa [mapErase, h, mapKeys] using ih.cons₂ k

theorem nodup_mapKeys_mapErase (m : SizeMap) (p : Nat)
    (h : (mapKeys m).Nodup) : (mapKeys (mapErase m p)).Nodup :=
  h.sublist (mapKeys_mapErase_sublist m p)

/-! ### Predicates used by the claims -/

/-- Bookkeeping invariant: the keys of `size_map_` are distinct (as they are in a
`std::map`) and `bytes_in_use` equals the sum of the recorded sizes. -/
def statsInv (st : AllocState) : Prop :=
  (mapKeys st.size_map).Nodup ∧ st.stats.bytes_in_use = sumSizes st.size_map

instance (st : AllocState) : Decidable (statsInv st) := by
  unfold statsInv; infer_instance

/-- The driver address returned by an allocation operation is fresh: not currently
tracked in the size map (`cudaMallocFromPoolAsync` never hands out a live address). -/
def freshFor (st : AllocState) : Op → Prop
  | Op.alloc (some rv) _ _ => mapLookup st.size_map rv = none
  | _ => True

instance (st : AllocState) : (op : Op) → Decidable (freshFor st op)
  | Op.alloc none _ _ => isTrue trivial
  | Op.alloc (some rv) _ _ =>
    inferInstanceAs (Decidable (mapLookup st.size_map rv = none))
  | Op.dealloc _ _ => isTrue trivial
  | Op.clear => isTrue trivial

/-- The operation neither deallocates the address `p` nor is an allocation that
returns `p` again. -/
def opAvoids (p : Nat) : Op → Prop
  | Op.alloc dr _ _ => dr ≠ some p
  | Op.dealloc _ q => q ≠ p
  | Op.clear => True

instance (p : Nat) : (op : Op) → Decidable (opAvoids p op)
  | Op.alloc dr _ _ => inferInstanceAs (Decidable (dr ≠ some p))
  | Op.dealloc _ q => inferInstanceAs (Decidable (q ≠ p))
  | Op.clear => isTrue trivial

/-- The operation, if it is an allocation, has a failing driver call (as every pool
allocation does on a device without pool support). -/
def opAllocFails : Op → Prop
  | Op.alloc dr _ _ => dr = none
  | _ => True

instance : (op : Op) → Decidable (opAllocFails op)
  | Op.alloc dr _ _ => inferInstanceAs (Decidable (dr = none))
  | Op.dealloc _ _ => isTrue trivial
  | Op.clear => isTrue trivial

/-- All four mutable counters of the statistics record are zero. -/
def countersZero (s : AllocatorStats) : Prop :=
  s.num_allocs = 0 ∧ s.bytes_in_use = 0 ∧
  s.peak_bytes_in_use = 0 ∧ s.largest_alloc_size = 0

instance (s : AllocatorStats) : Decidable (countersZero s) := by
  unfold countersZero; infer_instance

/-! ### Step lemmas -/

theorem step_preserves_lookup (st : AllocState) (p : Nat) (op : Op)
    (h : opAvoids p op) :
    mapLookup (step st op).size_map p = mapLookup st.size_map p := by
  cases op with
  | alloc dr a n =>
    cases dr with
    | none => rfl
    | some rv =>
      have hrv : rv ≠ p := fun hrp => h (by rw [hrp])
      simpa [step, AllocateRaw] using mapLookup_mapInsert_ne st.size_map rv p n hrv
  | dealloc ok q =>
    have hq : q ≠ p := h
    simp [step, DeallocateRaw_eq, mapLookup_mapErase_ne st.size_map q p hq]
  | clear => rfl

theorem run_preserves_lookup (p : Nat) (ops : List Op) :
    ∀ st : AllocState, (∀ op ∈ ops, opAvoids p op) →
      mapLookup (run st ops).size_map p = mapLookup st.size_map p := by
  induction ops with
  | nil => intro st _; rfl
  | cons op rest ih =>
    intro st h
    rw [show run st (op :: rest) = run (step st op) rest from rfl,
        ih (step st op) (fun o ho => h o (List.mem_cons_of_mem op ho)),
        step_preserves_lookup st p op (h op (List.mem_cons_self op rest))]

theorem statsInv_step (st : AllocState) (op : Op)
    (hinv : statsInv st) (hfresh : freshFor st op) : statsInv (step st op) := by
  obtain ⟨hnd, hsum⟩ := hinv
  cases op with
  | alloc dr a n =>
    cases dr with
    | none => exact ⟨hnd, hsum⟩
    | some rv =>
      have habs : mapLookup st.size_map rv = none := hfresh
      have hins := mapInsert_of_absent st.size_map rv n habs
      constructor
      · rw [show (step st (Op.alloc (some rv) a n)).size_map =
              mapInsert st.size_map rv n from rfl, hins, mapKeys_append]
        rw [List.nodup_append]
        refine ⟨hnd, List.nodup_singleton rv, ?_⟩
        intro x hx hx2
        have hxrv : x = rv := by simpa [mapKeys] using hx2
        rw [hxrv] at hx
        exact not_mem_mapKeys_of_lookup_none st.size_map rv habs hx
      · rw [show (step st (Op.alloc (some rv) a n)).size_map =
              mapInsert st.size_map rv n from rfl, hins, sumSizes_append,
            show (step st (Op.alloc (some rv) a n)).stats.bytes_in_use =
              st.stats.bytes_in_use + (n : Int) from rfl, hsum,
            show sumSizes [(rv, n)] = (n : Int) + 0 from rfl]
        ring
  | dealloc ok p =>
    rw [show step st (Op.dealloc ok p) = DeallocateRaw st ok p from rfl,
        DeallocateRaw_eq]
    cases hl : mapLookup st.size_map p with
    | none =>
      refine ⟨?_, ?_⟩
      · simpa [mapErase_of_absent st.size_map p hl] using hnd
      · simp [hl, mapErase_of_absent st.size_map p hl, hsum]
    | some s =>
      refine ⟨nodup_mapKeys_mapErase st.size_map p hnd, ?_⟩
      simp only [hl, Option.getD_some]
      rw [sumSizes_mapErase st.size_map p s hnd hl, hsum]
  | clear => exact ⟨hnd, hsum⟩

/-- Invariant for the unsupported-device scenario: all counters zero and the size map
empty. -/
def zeroInv (st : AllocState) : Prop :=
  countersZero st.stats ∧ st.size_map = []

theorem zeroInv_step (st : AllocState) (op : Op)
    (h : zeroInv st) (hf : opAllocFails op) : zeroInv (step st op) := by
  obtain ⟨⟨h1, h2, h3, h4⟩, hm⟩ := h
  cases op with
  | alloc dr a n =>
    have hdr : dr = none := hf
    subst hdr
    exact ⟨⟨h1, h2, h3, h4⟩, hm⟩
  | dealloc ok p =>
    rw [show step st (Op.dealloc ok p) = DeallocateRaw st ok p from rfl,
        DeallocateRaw_eq]
    have hl : mapLookup st.size_map p = none := by rw [hm]; rfl
    refine ⟨⟨h1, ?_, h3, h4⟩, ?_⟩
    · simp [hl, h2]
    · rw [hm]; rfl
  | clear =>
    refine ⟨⟨rfl, h2, ?_, rfl⟩, hm⟩
    rw [show (step st Op.clear).stats.peak_bytes_in_use =
          st.stats.bytes_in_use from rfl, h2]

theorem zeroInv_run (ops : List Op) :
    ∀ st : AllocState, zeroInv st → (∀ op ∈ ops, opAllocFails op) →
      zeroInv (run st ops) := by
  induction ops with
  | nil => intro st h _; exact h
  | cons op rest ih =>
    intro st h hops
    exact ih (step st op)
      (zeroInv_step st op h (hops op (List.mem_cons_self op rest)))
      (fun o ho => hops o (List.mem_cons_of_mem op ho))

theorem zeroInv_construct (ps : Nat) (reserve : Bool) :
    zeroInv (constructState none ps reserve) := by
  cases reserve with
  | false => exact ⟨⟨rfl, rfl, rfl, rfl⟩, rfl⟩
  | true =>
    have h1 : zeroInv (initState ps) := ⟨⟨rfl, rfl, rfl, rfl⟩, rfl⟩
    have h2 : zeroInv (DeallocateRaw (initState ps) true 0) :=
      zeroInv_step (initState ps) (Op.dealloc true 0) h1 trivial
    exact zeroInv_step (DeallocateRaw (initState ps) true 0) Op.clear h2 trivial

/-! ### The claims -/

/-- Claim C1: a successful `AllocateRaw(alignment, size)` returning address `p`
increments `num_allocs` by one, adds `size` to `bytes_in_use`, raises
`peak_bytes_in_use` to the maximum of its old value and the new `bytes_in_use`, raises
`largest_alloc_size` to the maximum of its old value and `size`, records `(p, size)` in
the size-tracking map, and `RequestedSize(p)` and `AllocatedSize(p)` return `size` —
and keep returning it across any further operations until `p` is deallocated, the
driver not handing `p` out again while it is live (`opAvoids`).  The hypothesis `hrv`
records that a successful driver allocation never returns the null pointer. -/
theorem allocateRaw_success_spec (st : AllocState) (rv a n : Nat) (hrv : rv ≠ 0) :
    (AllocateRaw st (some rv) a n).1 = some rv ∧
    (AllocateRaw st (some rv) a n).2.stats.num_allocs = st.stats.num_allocs + 1 ∧
    (AllocateRaw st (some rv) a n).2.stats.bytes_in_use =
      st.stats.bytes_in_use + (n : Int) ∧
    (AllocateRaw st (some rv) a n).2.stats.peak_bytes_in_use =
      max st.stats.peak_bytes_in_use
        (AllocateRaw st (some rv) a n).2.stats.bytes_in_use ∧
    (AllocateRaw st (some rv) a n).2.stats.largest_alloc_size =
      max st.stats.largest_alloc_size (n : Int) ∧
    mapLookup (AllocateRaw st (some rv) a n).2.size_map rv = some n ∧
    ∀ ops : List Op, (∀ op ∈ ops, opAvoids rv op) →
      RequestedSize (run (AllocateRaw st (some rv) a n).2 ops) rv =
        LookupOutcome.ok n ∧
      AllocatedSize (run (AllocateRaw st (some rv) a n).2 ops) rv =
        LookupOutcome.ok n := by
  refine ⟨rfl, rfl, rfl, rfl, rfl, mapLookup_mapInsert_self st.size_map rv n, ?_⟩
  intro ops h
  have hl : mapLookup (run (AllocateRaw st (some rv) a n).2 ops).size_map rv
      = some n := by
    rw [run_preserves_lookup rv ops _ h]
    exact mapLookup_mapInsert_self st.size_map rv n
  exact ⟨by simp [RequestedSize, hrv, hl], by simp [AllocatedSize, hrv, hl]⟩

theorem allocateRaw_success_spec_witness :
    (5 : Nat) ≠ 0 ∧
    (∀ op ∈ [Op.clear], opAvoids 5 op) ∧
    RequestedSize (run (AllocateRaw (initState 2) (some 5) 0 3).2 [Op.clear]) 5 =
      LookupOutcome.ok 3 :=
  ⟨by decide, by decide,
    ((allocateRaw_success_spec (initState 2) 5 0 3 (by decide)).2.2.2.2.2.2
      [Op.clear] (by decide)).1⟩

/-- Claim C2: `bytes_in_use` equals the sum of the values of the size-tracking map in
the initial state, and this invariant (`statsInv`, which also carries the `std::map`
key-uniqueness) is preserved by every operation: successful `AllocateRaw` (the driver
address being fresh, per `freshFor`), failed `AllocateRaw`, `DeallocateRaw` of a
tracked or untracked address, and `ClearStats`. -/
theorem bytesInUse_eq_sumSizes_invariant :
    (∀ ps, statsInv (initState ps)) ∧
    ∀ st op, statsInv st → freshFor st op → statsInv (step st op) :=
  ⟨fun _ => ⟨List.nodup_nil, rfl⟩, fun st op h hf => statsInv_step st op h hf⟩

theorem bytesInUse_eq_sumSizes_invariant_witness :
    statsInv (initState 4) ∧ freshFor (initState 4) (Op.alloc (some 7) 0 5) ∧
    statsInv (step (initState 4) (Op.alloc (some 7) 0 5)) :=
  ⟨by decide, by decide,
    bytesInUse_eq_sumSizes_invariant.2 (initState 4) (Op.alloc (some 7) 0 5)
      (by decide) (by decide)⟩

/-- Claim C3: deallocating a tracked address `p` with recorded size `s` removes `p`
from the size-tracking map and subtracts exactly `s` from `bytes_in_use`, regardless of
whether the driver `cudaFreeAsync` call succeeds or fails (the resulting states for the
two driver outcomes are identical); the other statistics fields are untouched. -/
theorem deallocateRaw_tracked_spec (st : AllocState) (ok : Bool) (p s : Nat)
    (h : mapLookup st.size_map p = some s) :
    (DeallocateRaw st ok p).stats.bytes_in_use =
      st.stats.bytes_in_use - (s : Int) ∧
    mapLookup (DeallocateRaw st ok p).size_map p = none ∧
    DeallocateRaw st true p = DeallocateRaw st false p ∧
    (DeallocateRaw st ok p).stats.num_allocs = st.stats.num_allocs ∧
    (DeallocateRaw st ok p).stats.peak_bytes_in_use =
      st.stats.peak_bytes_in_use ∧
    (DeallocateRaw st ok p).stats.largest_alloc_size =
      st.stats.largest_alloc_size := by
  refine ⟨?_, ?_, rfl, rfl, rfl, rfl⟩
  · simp [DeallocateRaw_eq, h]
  · exact mapLookup_mapErase_self (mapIndexDefault st.size_map p) p

theorem deallocateRaw_tracked_spec_witness :
    mapLookup (AllocateRaw (initState 0) (some 3) 0 7).2.size_map 3 = some 7 ∧
    (DeallocateRaw (AllocateRaw (initState 0) (some 3) 0 7).2 true 3).stats.bytes_in_use =
      (AllocateRaw (initState 0) (some 3) 0 7).2.stats.bytes_in_use - (7 : Int) :=
  ⟨by decide, (deallocateRaw_tracked_spec _ true 3 7 (by decide)).1⟩

/-- Claim C4: when the driver pool allocation fails, `AllocateRaw` returns the null
pointer (no fatal error in the model: the source only logs) and the whole state — the
statistics record and the size-tracking map — is unchanged. -/
theorem allocateRaw_failure_spec (st : AllocState) (a n : Nat) :
    AllocateRaw st none a n = (none, st) := rfl

/-- Claim C5: `ClearStats` zeroes `num_allocs` and `largest_alloc_size`, resets
`peak_bytes_in_use` to the current `bytes_in_use` (not to zero), and leaves
`bytes_in_use` and the size-tracking map unchanged. -/
theorem clearStats_spec (st : AllocState) :
    (ClearStats st).stats.num_allocs = 0 ∧
    (ClearStats st).stats.largest_alloc_size = 0 ∧
    (ClearStats st).stats.peak_bytes_in_use = st.stats.bytes_in_use ∧
    (ClearStats st).stats.bytes_in_use = st.stats.bytes_in_use ∧
    (ClearStats st).size_map = st.size_map :=
  ⟨rfl, rfl, rfl, rfl, rfl⟩

/-- Claim C6: `peak_bytes_in_use ≥ bytes_in_use` holds initially and is preserved by
every operation; `AllocateRaw` never lowers the peak, `DeallocateRaw` leaves it
unchanged (so never lowers it), and `ClearStats` sets it to the current
`bytes_in_use`. -/
theorem peakBytes_invariant_spec :
    (∀ ps, (initState ps).stats.bytes_in_use ≤
      (initState ps).stats.peak_bytes_in_use) ∧
    (∀ st op, st.stats.bytes_in_use ≤ st.stats.peak_bytes_in_use →
      (step st op).stats.bytes_in_use ≤ (step st op).stats.peak_bytes_in_use) ∧
    (∀ st dr a n, st.stats.peak_bytes_in_use ≤
      (step st (Op.alloc dr a n)).stats.peak_bytes_in_use) ∧
    (∀ st ok p, (step st (Op.dealloc ok p)).stats.peak_bytes_in_use =
      st.stats.peak_bytes_in_use) ∧
    (∀ st, (step st Op.clear).stats.peak_bytes_in_use =
      st.stats.bytes_in_use) := by
  refine ⟨fun _ => le_refl 0, ?_, ?_, fun st ok p => rfl, fun st => rfl⟩
  · intro st op h
    cases op with
    | alloc dr a n =>
      cases dr with
      | none => exact h
      | some rv => exact le_max_right _ _
    | dealloc ok p =>
      show (DeallocateRaw st ok p).stats.bytes_in_use ≤
        (DeallocateRaw st ok p).stats.peak_bytes_in_use
      rw [DeallocateRaw_eq]
      show st.stats.bytes_in_use - ((mapLookup st.size_map p).getD 0 : Int) ≤
        st.stats.peak_bytes_in_use
      omega
    | clear => exact le_refl _
  · intro st dr a n
    cases dr with
    | none => exact le_refl _
    | some rv => exact le_max_left _ _

theorem peakBytes_invariant_spec_witness :
    (step (initState 9) (Op.dealloc true 2)).stats.bytes_in_use ≤
      (step (initState 9) (Op.dealloc true 2)).stats.peak_bytes_in_use :=
  peakBytes_invariant_spec.2.1 (initState 9) (Op.dealloc true 2) (by decide)

/-- Claim C7 as stated is false: looking up a non-null untracked address in
`RequestedSize` or `AllocatedSize` reaches `std::map::at`, which raises the
recoverable `std::out_of_range` exception rather than failing the process-terminating
`CHECK` (`CHECK(ptr)` only guards against the null pointer).  Concretely, address `1`
with an empty size-tracking map. -/
theorem requestedSize_untracked_fatal_cex :
    mapLookup (initState 0).size_map 1 = none ∧
    RequestedSize (initState 0) 1 ≠ LookupOutcome.fatalCheck ∧
    AllocatedSize (initState 0) 1 ≠ LookupOutcome.fatalCheck := by decide

/-- Claim C7 (amended): looking up an untracked address never returns an ordinary size
value: it fails the fatal `CHECK` when the address is the null pointer, and otherwise
raises the `std::out_of_range` exception of `std::map::at`. -/
theorem requestedSize_untracked_spec (st : AllocState) (p : Nat)
    (h : mapLookup st.size_map p = none) :
    RequestedSize st p =
      (if p = 0 then LookupOutcome.fatalCheck else LookupOutcome.outOfRange) ∧
    AllocatedSize st p =
      (if p = 0 then LookupOutcome.fatalCheck else LookupOutcome.outOfRange) := by
  by_cases hp : p = 0 <;> simp [RequestedSize, AllocatedSize, hp, h]

theorem requestedSize_untracked_spec_witness :
    mapLookup (initState 0).size_map 0 = none ∧
    RequestedSize (initState 0) 0 =
      (if (0 : Nat) = 0 then LookupOutcome.fatalCheck else LookupOutcome.outOfRange) :=
  ⟨by decide, (requestedSize_untracked_spec (initState 0) 0 (by decide)).1⟩

/-- Claim C8 as stated is false: the bookkeeping writes of `AllocateRaw` and
`DeallocateRaw` are performed without acquiring `lock_` — neither function body
contains a `mutex_lock`, as their transcribed action traces show: at least one
`stats_`/`size_map_` write is marked as happening with the lock not held. -/
theorem lockDiscipline_claim_cex :
    ¬ (mutationsUnderLock (allocateRawEvents true) ∧
       mutationsUnderLock (deallocateRawEvents true) ∧
       mutationsUnderLock (deallocateRawEvents false)) := by decide

/-- Claim C8 (amended): only `GetStats` and `ClearStats` acquire the statistics mutex.
Every `stats_`/`size_map_` write of `AllocateRaw` and `DeallocateRaw` (on both the
driver-success and driver-failure paths) happens with the mutex not held, while the
`ClearStats` writes and the `GetStats` read do happen under the mutex. -/
theorem lockDiscipline_spec :
    (∀ b, mutationsOutsideLock (allocateRawEvents b)) ∧
    (∀ b, mutationsOutsideLock (deallocateRawEvents b)) ∧
    mutationsUnderLock clearStatsEvents ∧
    ∀ eb ∈ markHeld 0 getStatsEvents, eb.1 = Event.statsRead → eb.2 = true := by
  decide

/-- Claim C9: on a device reported as not supporting pool-based allocation every
driver pool allocation fails, modelled by `none` as every driver outcome.  Then the
constructor (with or without the pre-warm) leaves all four statistics counters zero,
the counters stay zero across any sequence of operations whose allocations all fail,
and every such `AllocateRaw` returns the null pointer. -/
theorem unsupportedDevice_spec (ps : Nat) (reserve : Bool) (ops : List Op)
    (hops : ∀ op ∈ ops, opAllocFails op) :
    countersZero (constructState none ps reserve).stats ∧
    countersZero (run (constructState none ps reserve) ops).stats ∧
    ∀ st : AllocState, ∀ a n : Nat, (AllocateRaw st none a n).1 = none := by
  have h0 := zeroInv_construct ps reserve
  have h1 := zeroInv_run ops (constructState none ps reserve) h0 hops
  exact ⟨h0.1, h1.1, fun st a n => rfl⟩

theorem unsupportedDevice_spec_witness :
    (∀ op ∈ [Op.alloc none 0 5, Op.dealloc true 0, Op.clear], opAllocFails op) ∧
    countersZero (run (constructState none 16 true)
      [Op.alloc none 0 5, Op.dealloc true 0, Op.clear]).stats :=
  ⟨by decide, (unsupportedDevice_spec 16 true
      [Op.alloc none 0 5, Op.dealloc true 0, Op.clear] (by decide)).2.1⟩

/-- Claim C10: deallocating an address that is not tracked (including the null pointer
returned by a failed pre-warm allocation) leaves the state exactly as it was:
`operator[]` default-inserts size `0`, zero is subtracted from `bytes_in_use`, and the
erase removes only the just-inserted entry, leaving every previously-present entry
intact. -/
theorem deallocateRaw_untracked_spec (st : AllocState) (ok : Bool) (p : Nat)
    (h : mapLookup st.size_map p = none) :
    DeallocateRaw st ok p = st := by
  rw [DeallocateRaw_eq, h, mapErase_of_absent st.size_map p h]
  simp

theorem deallocateRaw_untracked_spec_witness :
    mapLookup (initState 4).size_map 0 = none ∧
    DeallocateRaw (initState 4) true 0 = initState 4 :=
  ⟨by decide, deallocateRaw_untracked_spec (initState 4) true 0 (by decide)⟩

end CudaMallocAsync
